import Mathlib

/-!
Verification of the orion-mcp result-aggregation and visualization pipeline.

The development shallowly embeds the Python sources (`orion_mcp.py`,
`utils/utils.py`, and the legacy snapshot `orion-mcp.py`) into Lean:

* Python strings are modelled as `List Char` (`PyStr`), so that every string
  operation is structural and kernel-reducible.
* Python floats appearing as JSON numbers are modelled exactly, as unreduced
  fractions `PyFloat` (integer numerator over natural denominator); the claims
  only exercise decimal literals, whose values these fractions carry exactly.
* JSON values (the output of `json.loads`) are the inductive `Json`.
* `json.loads` itself (the standard library's text-to-JSON parser) and process
  spawning are external collaborators; they enter as oracle function arguments.
* Python dicts are insertion-ordered association lists; assignment is `setKey`
  (update in place, append when fresh), lookup is `lookupKey`.
* Raised exceptions are modelled with `Except`; a Python function that catches
  exceptions and returns a string instead is modelled as total, returning
  `Sum` of the error string and the normal result.
-/

/-! ## Python base model -/

abbrev PyStr := List Char

/-- Embed a Lean string literal as a Python string (list of characters). -/
def pstr (s : String) : PyStr := s.data

/-- Whitespace recognised by `str.strip` (the forms exercised here). -/
def isSpaceChar (c : Char) : Bool := c == ' ' || c == '\t' || c == '\n' || c == '\r'

/-- Python `str.strip()`. -/
def pyStrip (s : PyStr) : PyStr :=
  ((s.dropWhile isSpaceChar).reverse.dropWhile isSpaceChar).reverse

/-- Python `str.split(sep)` for a one-character separator: keeps empty pieces,
`"".split(sep)` gives `[""]`. -/
def splitChar (sep : Char) (s : PyStr) : List PyStr :=
  s.foldr
    (fun c acc =>
      if c == sep then [] :: acc
      else
        match acc with
        | cur :: rest => (c :: cur) :: rest
        | [] => [[c]])
    [[]]

/-- Python `str.splitlines()` as used on already-stripped text: `\n`-separated
lines, and the empty string yields no lines. -/
def splitlinesPy (s : PyStr) : List PyStr :=
  if s.isEmpty then [] else splitChar '\n' s

/-- Python `str.lower()` (ASCII letters, which is all the sources compare). -/
def lowerChar (c : Char) : Char :=
  if 'A' ≤ c && c ≤ 'Z' then Char.ofNat (c.toNat + 32) else c

def pyLower (s : PyStr) : PyStr := s.map lowerChar

/-- Does `p` occur as a prefix of `s`? -/
def isPrefixList (p s : PyStr) : Bool :=
  match p, s with
  | [], _ => true
  | _ :: _, [] => false
  | a :: p', b :: s' => a == b && isPrefixList p' s'

/-- Python `pat in s` substring containment. -/
def containsSub (pat : PyStr) (s : PyStr) : Bool :=
  match s with
  | [] => isPrefixList pat []
  | _ :: rest => isPrefixList pat s || containsSub pat rest

/-- Python `str.startswith` for a one-character pattern. -/
def startsWithChar (c : Char) (s : PyStr) : Bool :=
  match s with
  | [] => false
  | a :: _ => a == c

/-- Python `sep.join(parts)`. -/
def joinWith (sep : PyStr) : List PyStr → PyStr
  | [] => []
  | [x] => x
  | x :: xs => x ++ sep ++ joinWith sep xs

/-- A Python float carrying an exact decimal value, kept as an unreduced
fraction `num / den` (`den` positive for every value built here). The sources
only compare such numbers with zero, take absolute values, and format them to
two decimal places, all of which is exact on this representation. -/
structure PyFloat where
  num : Int
  den : Nat
deriving DecidableEq

/-- The float is strictly positive (denominators are positive). -/
def PyFloat.isPos (f : PyFloat) : Bool := 0 < f.num

/-- The float is strictly negative. -/
def PyFloat.isNeg (f : PyFloat) : Bool := f.num < 0

/-- Python `abs` on the modelled float. -/
def PyFloat.pabs (f : PyFloat) : PyFloat := ⟨(f.num.natAbs : Int), f.den⟩

/-- Python `==` on numbers: equality of the represented values
(cross-multiplication on the fractions). -/
def PyFloat.beqv (f g : PyFloat) : Bool := f.num * (g.den : Int) == g.num * (f.den : Int)

/-- Round the rational `a / b` to the nearest integer, ties to even — the
rounding CPython's `format(x, '.2f')` applies to the (here exact) value. -/
def rndHalfEven (a : Int) (b : Nat) : Int :=
  let q := a.fdiv b
  let r := a - q * b
  if 2 * r < (b : Int) then q
  else if 2 * r > (b : Int) then q + 1
  else if q % 2 = 0 then q else q + 1

/-- Decimal digits of a natural number (fuel-based so it kernel-reduces). -/
def digitsAux : Nat → Nat → List Char → List Char
  | 0, _, acc => acc
  | _ + 1, 0, acc => acc
  | fuel + 1, n, acc => digitsAux fuel (n / 10) (Char.ofNat (48 + n % 10) :: acc)

def natRepr (n : Nat) : PyStr :=
  if n = 0 then ['0'] else digitsAux (n + 1) n []

def intRepr (i : Int) : PyStr :=
  if i < 0 then '-' :: natRepr i.natAbs else natRepr i.natAbs

/-- Digits of a two-decimal rendering of `n` hundredths: `n / 100` then a dot
then `n % 100` padded to two digits. -/
def fmt2aux (n : Nat) : PyStr :=
  natRepr (n / 100) ++ '.' :: (if n % 100 < 10 then '0' :: natRepr (n % 100) else natRepr (n % 100))

/-- Python `f"{x:.2f}"` on the modelled float: multiply by 100, round ties to
even, render with two decimals. -/
def fmt2 (f : PyFloat) : PyStr :=
  let n := rndHalfEven (f.num * 100) f.den
  if n < 0 then '-' :: fmt2aux (-n).toNat else fmt2aux n.toNat

/-! ## JSON values (the result of `json.loads`) -/

inductive Json where
  | null
  | bool (b : Bool)
  | num (f : PyFloat)
  | str (s : PyStr)
  | arr (elems : List Json)
  | obj (fields : List (PyStr × Json))

/-- Python dict lookup on an insertion-ordered association list. -/
def lookupKey {κ α : Type} [BEq κ] (kvs : List (κ × α)) (k : κ) : Option α :=
  match kvs with
  | [] => none
  | (k', v) :: rest => if k' == k then some v else lookupKey rest k

/-- Python dict assignment: replace in place when the key is present, append
when it is fresh (insertion order is preserved). -/
def setKey {κ α : Type} [BEq κ] (kvs : List (κ × α)) (k : κ) (v : α) : List (κ × α) :=
  match kvs with
  | [] => [(k, v)]
  | (k', v') :: rest => if k' == k then (k, v) :: rest else (k', v') :: setKey rest k v

/-- `str(KeyError(k))` is the quoted key. -/
def keyErrorMsg (k : PyStr) : PyStr := '\x27' :: (k ++ ['\x27'])

/-- Python `j[k]` subscripting: `KeyError` when the key is absent, `TypeError`
when `j` is not a dict (the exception texts for non-dict cases abbreviate
CPython's wording; no claim inspects them). -/
def pyGetItem (j : Json) (k : PyStr) : Except PyStr Json :=
  match j with
  | .obj kvs =>
    match lookupKey kvs k with
    | some v => .ok v
    | none => .error (keyErrorMsg k)
  | _ => .error (pstr "TypeError: value is not subscriptable by string")

/-- Python `j.get(k, dflt)`: only dicts have `.get` (otherwise
`AttributeError`). -/
def pyGetD (j : Json) (k : PyStr) (dflt : Json) : Except PyStr Json :=
  match j with
  | .obj kvs => .ok ((lookupKey kvs k).getD dflt)
  | _ => .error (pstr "AttributeError: object has no attribute \x27get\x27")

/-- Python `len`. -/
def pyLen (j : Json) : Except PyStr Nat :=
  match j with
  | .arr l => .ok l.length
  | .obj kvs => .ok kvs.length
  | .str s => .ok s.length
  | _ => .error (pstr "TypeError: object has no len()")

/-- Python iteration (`for x in j`): lists yield elements, dicts yield keys,
strings yield one-character strings. -/
def pyIter (j : Json) : Except PyStr (List Json) :=
  match j with
  | .arr l => .ok l
  | .obj kvs => .ok (kvs.map (fun p => Json.str p.1))
  | .str s => .ok (s.map (fun c => Json.str [c]))
  | _ => .error (pstr "TypeError: object is not iterable")

/-- Python `j.items()`: dicts only. -/
def pyItems (j : Json) : Except PyStr (List (PyStr × Json)) :=
  match j with
  | .obj kvs => .ok kvs
  | _ => .error (pstr "AttributeError: object has no attribute \x27items\x27")

/-- Python truthiness. -/
def truthy (j : Json) : Bool :=
  match j with
  | .null => false
  | .bool b => b
  | .num f => f.num != 0
  | .str s => !s.isEmpty
  | .arr l => !l.isEmpty
  | .obj kvs => !kvs.isEmpty

mutual

/-- Python `==` on JSON values. Booleans compare equal to the numbers 0/1 as
in Python; dicts are compared field-by-field in insertion order (CPython's
dict equality is order-insensitive, but every comparison the sources perform
is on scalars or lists of scalars). -/
def pyEq : Json → Json → Bool
  | .null, .null => true
  | .bool a, .bool b => a == b
  | .bool a, .num g => PyFloat.beqv ⟨if a then 1 else 0, 1⟩ g
  | .num f, .bool b => PyFloat.beqv f ⟨if b then 1 else 0, 1⟩
  | .num f, .num g => PyFloat.beqv f g
  | .str s, .str t => s == t
  | .arr xs, .arr ys => pyEqList xs ys
  | .obj xs, .obj ys => pyEqFields xs ys
  | _, _ => false

def pyEqList : List Json → List Json → Bool
  | [], [] => true
  | x :: xs, y :: ys => pyEq x y && pyEqList xs ys
  | _, _ => false

def pyEqFields : List (PyStr × Json) → List (PyStr × Json) → Bool
  | [], [] => true
  | (k, v) :: xs, (k', v') :: ys => k == k' && pyEq v v' && pyEqFields xs ys
  | _, _ => false

end

/-- `str(x)` as interpolated by the f-strings of the sources: `None`, boolean
and string cases are exact; the numeric and container renderings are
display-only stand-ins (no claim exercises them). -/
def pyStrJ : Json → PyStr
  | .null => pstr "None"
  | .bool b => if b then pstr "True" else pstr "False"
  | .str s => s
  | .num f => if f.den = 1 then intRepr f.num ++ pstr ".0" else intRepr f.num ++ '/' :: natRepr f.den
  | .arr _ => pstr "[...]"
  | .obj _ => pstr "\x7b...\x7d"

/-! ## Process Runner (`utils/utils.py`: `run_command_async`) -/

/-- The `command` argument: a single string (shell mode) or an argument
vector. -/
inductive PyCmd where
  | strCmd (s : PyStr)
  | listCmd (l : List PyStr)

/-- The exception classes relevant to `run_command_async`'s `try` block:
`OSError` and `subprocess.SubprocessError` are caught, `TypeError` and
`ValueError` are not. -/
inductive PyExc where
  | osError (msg : PyStr)
  | subprocessError (msg : PyStr)
  | typeError (msg : PyStr)
  | valueError (msg : PyStr)

/-- `str(e)` for the modelled exception. -/
def PyExc.msg : PyExc → PyStr
  | .osError m => m
  | .subprocessError m => m
  | .typeError m => m
  | .valueError m => m

/-- The exceptions caught by `except (OSError, subprocess.SubprocessError)`. -/
def isLaunchErr : PyExc → Bool
  | .osError _ => true
  | .subprocessError _ => true
  | _ => false

/-- `subprocess.CompletedProcess` as built by `run_command_async`. -/
structure CompletedProcess where
  args : PyCmd
  returncode : Int
  stdout : PyStr
  stderr : PyStr

/-- The ambient process environment `os.environ`. -/
abbrev EnvMap := List (PyStr × PyStr)

/-- Python `base.copy()` followed by `.update(upd)`. -/
def dictUpdate (base upd : EnvMap) : EnvMap :=
  upd.foldl (fun acc kv => setKey acc kv.1 kv.2) base

/-- What `asyncio.create_subprocess_exec/_shell` + `communicate` + decoding
deliver when the child could be started. -/
structure SpawnResult where
  returncode : Int
  stdout : PyStr
  stderr : PyStr

/-- Does the runtime type of `command` match the `shell` flag?  When it does
not, `run_command_async` itself raises `TypeError` inside its `try` block,
and that exception is not among the caught classes. -/
def cmdShellMatches : PyCmd → Bool → Bool
  | .strCmd _, true => true
  | .listCmd _, false => true
  | _, _ => false

/-- The body of `run_command_async` up to the exception policy: build the
merged environment, raise `TypeError` on a command/shell mismatch, otherwise
spawn.  `spawn` is the external process boundary (it may itself fail with any
of the modelled exception classes). -/
def runCommandCore
    (spawn : PyCmd → Bool → Option EnvMap → Except PyExc SpawnResult)
    (ambient : EnvMap) (command : PyCmd) (env : Option EnvMap) (shell : Bool) :
    Except PyExc CompletedProcess :=
  let env_vars : Option EnvMap := env.map (fun e => dictUpdate ambient e)
  let attempt : Except PyExc SpawnResult :=
    if shell then
      match command with
      | .strCmd _ => spawn command shell env_vars
      | .listCmd _ => .error (.typeError (pstr "command must be a string when shell=True"))
    else
      match command with
      | .listCmd _ => spawn command shell env_vars
      | .strCmd _ => .error (.typeError (pstr "command must be a list when shell=False"))
  match attempt with
  | .ok r => .ok ⟨command, r.returncode, r.stdout, r.stderr⟩
  | .error e =>
    if isLaunchErr e then .ok ⟨command, 1, [], e.msg⟩ else .error e

/-- `run_command_async`.  The second component is `os.environ` after the call:
the function only ever copies the ambient environment (`os.environ.copy()`),
never writes it, so the state threads through unchanged. -/
def run_command_async
    (spawn : PyCmd → Bool → Option EnvMap → Except PyExc SpawnResult)
    (ambient : EnvMap) (command : PyCmd) (env : Option EnvMap) (shell : Bool) :
    Except PyExc CompletedProcess × EnvMap :=
  (runCommandCore spawn ambient command env shell, ambient)

/-! ## `run_orion` and `get_data_source` (`utils/utils.py`) -/

/-- `os.environ.get("ES_SERVER")`: `None` when the variable is unset. -/
def get_data_source (ambient : EnvMap) : Option PyStr :=
  lookupKey ambient (pstr "ES_SERVER")

/-- The command vector `run_orion` builds: direct invocation when `orion` is
on the search path, the podman fallback otherwise. -/
def orionCommand (orionOnPath : Bool) (lookback config : PyStr) : List PyStr :=
  if orionOnPath then
    [pstr "orion", pstr "cmd",
     pstr "--lookback", lookback ++ pstr "d",
     pstr "--hunter-analyze",
     pstr "--config", config,
     pstr "-o", pstr "json"]
  else
    [pstr "podman", pstr "run", pstr "--env-host", pstr "orion",
     pstr "orion", pstr "cmd",
     pstr "--lookback", lookback ++ pstr "d",
     pstr "--hunter-analyze",
     pstr "--config", config,
     pstr "-o", pstr "json"]

/-- The invocation `run_orion` hands to `run_command_async`: the command
vector and the `env` override dict.  `ES_SERVER` maps to the `data_source`
argument, which Python's dynamic typing lets be `None`. -/
structure OrionInvocation where
  command : List PyStr
  env : List (PyStr × Option PyStr)

/-- `run_orion` up to the process boundary: the `ValueError` guard (raised
exactly on the empty string; `None == ""` is false in Python so `None` passes)
and the construction of the command and environment that are then passed to
`run_command_async`. -/
def run_orion (orionOnPath : Bool) (lookback config : PyStr)
    (data_source : Option PyStr) (version : PyStr) : Except PyStr OrionInvocation :=
  if data_source = some [] then .error (pstr "Data source is not set")
  else
    .ok ⟨orionCommand orionOnPath lookback config,
         [(pstr "ES_SERVER", data_source),
          (pstr "version", some version),
          (pstr "es_metadata_index", some (pstr "perf_scale_ci*")),
          (pstr "es_benchmark_index", some (pstr "ripsaw-kube-burner-*"))]⟩

/-- Observer: does `run_orion` raise? -/
def runOrionRejects (orionOnPath : Bool) (lookback config : PyStr)
    (data_source : Option PyStr) (version : PyStr) : Bool :=
  match run_orion orionOnPath lookback config data_source version with
  | .error _ => true
  | .ok _ => false

/-- Observer: the `ES_SERVER` entry of the child-process environment override
(`none` when `run_orion` raised instead). -/
def runOrionES (orionOnPath : Bool) (lookback config : PyStr)
    (data_source : Option PyStr) (version : PyStr) : Option (Option (Option PyStr)) :=
  match run_orion orionOnPath lookback config data_source version with
  | .ok inv => some (lookupKey inv.env (pstr "ES_SERVER"))
  | .error _ => none

/-! ## Output Normalizer (`utils/utils.py`: `extract_json_block`, `summarize_result`) -/

/-- `log_text.strip().splitlines()`. -/
def extractedLines (log_text : PyStr) : List PyStr :=
  splitlinesPy (pyStrip log_text)

def uuidMissingMsg : PyStr := pstr "No UUID present for given metadata"

/-- `utils.py` calls `sys.exit(1)` on every extraction failure but never
imports `sys`, so each of those branches actually raises
`NameError("name 'sys' is not defined")`, which `summarize_result`'s
`except Exception` then catches. -/
def sysNotDefined : PyStr := pstr "name \x27sys\x27 is not defined"

/-- Index of the first delimiter line (a line whose stripped content starts
with `=`). -/
def findDelimIdx (lines : List PyStr) : Option Nat :=
  lines.findIdx? (fun l => startsWithChar '=' (pyStrip l))

/-- The JSON payload `extract_json_block` would hand to `json.loads`:
everything after the delimiter line, joined and stripped (empty when there is
no delimiter). -/
def extractedText (log_text : PyStr) : PyStr :=
  match findDelimIdx (extractedLines log_text) with
  | some i => pyStrip (joinWith (pstr "\n") ((extractedLines log_text).drop (i + 1)))
  | none => []

/-- `extract_json_block(log_text)`.  `loads` is the external `json.loads`.
All four failure branches (UUID-missing line, no delimiter, empty payload,
parse failure) execute `sys.exit(1)` and therefore raise the same
`NameError` (see `sysNotDefined`). -/
def extract_json_block (loads : PyStr → Except PyStr Json) (log_text : PyStr) :
    Except PyStr Json :=
  let lines := extractedLines log_text
  if lines.any (fun l => containsSub uuidMissingMsg l) then .error sysNotDefined
  else
    match findDelimIdx lines with
    | none => .error sysNotDefined
    | some i =>
      let json_text := pyStrip (joinWith (pstr "\n") (lines.drop (i + 1)))
      if json_text.isEmpty then .error sysNotDefined
      else
        match loads json_text with
        | .ok j => .ok j
        | .error _ => .error sysNotDefined

/-- An entry of the summary dict built by `summarize_result`: the reserved
`timestamp` key holds the run's raw timestamp, every metric key holds
`{"value": [...]}`. -/
inductive SEntry where
  | raw (j : Json)
  | vals (l : List Json)

abbrev Summary := List (PyStr × SEntry)

def tsKey : PyStr := pstr "timestamp"

/-- The two branches of the metric loop's dict insertion.
`summary[m] = {"value": [data["value"]]}` on first occurrence,
`summary[m]["value"].append(data["value"])` afterwards; indexing into the
raw-timestamp entry (only reachable for a metric literally named
`timestamp`) fails in Python as well. -/
def insertMetricValue (s : Summary) (name : PyStr) (mdata : Json) :
    Except PyStr Summary :=
  match lookupKey s name with
  | none => do
    let v ← pyGetItem mdata (pstr "value")
    .ok (setKey s name (.vals [v]))
  | some (.vals l) => do
    let v ← pyGetItem mdata (pstr "value")
    .ok (setKey s name (.vals (l ++ [v])))
  | some (.raw _) => .error (pstr "TypeError: timestamp entry is not a metric record")

/-- One iteration of the inner metric loop: set `summary["timestamp"]` from
the run (last write wins), then honour `isolate`, then insert the value. -/
def stepMetric (isolate : Option PyStr) (run : Json) (s : Summary)
    (name : PyStr) (mdata : Json) : Except PyStr Summary := do
  let ts ← pyGetItem run tsKey
  let s' := setKey s tsKey (.raw ts)
  match isolate with
  | some iso => if iso == name then insertMetricValue s' name mdata else .ok s'
  | none => insertMetricValue s' name mdata

/-- One iteration of the outer run loop. -/
def stepRun (isolate : Option PyStr) (s : Summary) (run : Json) :
    Except PyStr Summary := do
  let metricsJ ← pyGetItem run (pstr "metrics")
  let items ← pyItems metricsJ
  items.foldlM (fun s p => stepMetric isolate run s p.1 p.2) s

/-- The body of `summarize_result` applied to the already-extracted JSON:
`len(...) == 0` short-circuits to the empty dict, otherwise the runs are
folded through the metric loop. -/
def summarizeJson (j : Json) (isolate : Option PyStr) : Except PyStr Summary := do
  let n ← pyLen j
  if n = 0 then .ok []
  else do
    let runs ← pyIter j
    runs.foldlM (stepRun isolate) []

/-- The fallible part of `summarize_result`: extraction followed by the
summarisation loop. -/
def summarizePipeline (loads : PyStr → Except PyStr Json)
    (result : CompletedProcess) (isolate : Option PyStr) : Except PyStr Summary := do
  let ej ← extract_json_block loads result.stdout
  summarizeJson ej isolate

/-- `summarize_result(result, isolate)`: the whole body sits in a
`try ... except Exception as e: return f"Error : {e}"`, so the function is
total and returns either the summary dict or an error string. -/
def summarize_result (loads : PyStr → Except PyStr Json)
    (result : CompletedProcess) (isolate : Option PyStr) : Sum PyStr Summary :=
  match summarizePipeline loads result isolate with
  | .ok s => .inr s
  | .error e => .inl (pstr "Error : " ++ e)

/-- Observer for the claims: the entry stored under `timestamp` (when the
call returned a dict that has one). -/
def summaryTimestamp (r : Except PyStr Summary) : Option SEntry :=
  match r with
  | .ok s => lookupKey s tsKey
  | .error _ => none

/-- Observer: the call returned a dict and every key of it is `X` or
`timestamp`. -/
def keysSubset (r : Except PyStr Summary) (X : PyStr) : Bool :=
  match r with
  | .ok s => s.all (fun p => p.1 == X || p.1 == tsKey)
  | .error _ => false

/-- Observer: the call returned the error-string shape (which in this code
always carries the `"Error : "` preamble, hence is never empty and never the
mapping). -/
def isErrorString (r : Sum PyStr Summary) : Bool :=
  match r with
  | .inl e => isPrefixList (pstr "Error : ") e
  | .inr _ => false

/-- Bool views of `Except`, used in claim statements. -/
def exceptErrB {ε α : Type} : Except ε α → Bool
  | .error _ => true
  | .ok _ => false

/-- A structurally valid run record, as produced by the external analyser: a
timestamp and a metric map whose entries each carry a `value` field. -/
structure MRun where
  timestamp : Json
  metrics : List (PyStr × Json)

/-- The JSON object for a valid run record. -/
def MRun.toJson (r : MRun) : Json :=
  .obj [(tsKey, r.timestamp),
        (pstr "metrics", .obj (r.metrics.map (fun p => (p.1, Json.obj [(pstr "value", p.2)]))))]

/-! ## Regression Extractor (`orion_mcp.py`: `_extract_regression_details`,
`_run_regression_checks`) -/

/-- One element of the details list `_extract_regression_details` builds. -/
structure RegressionDetail where
  uuid : Json
  ocpVersion : Json
  previousOcpVersion : Json
  prs_added : List Json
  metrics : List PyStr

/-- `metric_info.get("percentage_change", 0)` compared against / formatted as
a number: ints and floats directly, booleans as 0/1 (Python's `bool` is an
`int`), anything else is a `TypeError` as in Python's `>` on mixed types. -/
def jsonNumVal (j : Json) : Except PyStr PyFloat :=
  match j with
  | .num f => .ok f
  | .bool b => .ok ⟨if b then 1 else 0, 1⟩
  | _ => .error (pstr "TypeError: comparison of non-number with int")

/-- The human-readable line for one metric of a changepoint record:
strictly positive change → "increased", strictly negative → "decreased" with
the absolute value, zero → no line. -/
def describeMetric (name : PyStr) (info : Json) : Except PyStr (Option PyStr) := do
  let pcJ ← pyGetD info (pstr "percentage_change") (.num ⟨0, 1⟩)
  let pc ← jsonNumVal pcJ
  if pc.isPos then
    .ok (some (name ++ pstr " increased by " ++ fmt2 pc ++ pstr "%"))
  else if pc.isNeg then
    .ok (some (name ++ pstr " decreased by " ++ fmt2 pc.pabs ++ pstr "%"))
  else
    .ok none

/-- `dat.get("prs", []) or []` followed by iteration (the list comprehension
iterates the current record's PRs). -/
def getPrs (dat : Json) : Except PyStr (List Json) := do
  let prsJ ← pyGetD dat (pstr "prs") (.arr [])
  let prsJ := if truthy prsJ then prsJ else Json.arr []
  pyIter prsJ

/-- The previous record's PRs: `(prev.get("prs", []) if isinstance(prev, dict)
else []) or []`, viewed as a collection for membership tests. -/
def getPrevPrs (prev : Option Json) : Except PyStr (List Json) :=
  match prev with
  | some (Json.obj kvs) => do
    let prsJ := (lookupKey kvs (pstr "prs")).getD (.arr [])
    let prsJ := if truthy prsJ then prsJ else Json.arr []
    pyIter prsJ
  | _ => .ok []

/-- `prev.get("ocpVersion") if isinstance(prev, dict) else None`. -/
def getPrevOcp (prev : Option Json) : Json :=
  match prev with
  | some (Json.obj kvs) => (lookupKey kvs (pstr "ocpVersion")).getD .null
  | _ => .null

/-- Build the detail record for one changepoint element (`prev` is the
immediately preceding element of the array, when there is one). -/
def buildDetail (prev : Option Json) (dat : Json) : Except PyStr RegressionDetail := do
  let metricsJ ← pyGetD dat (pstr "metrics") (.obj [])
  let items ← pyItems metricsJ
  let metrics ← items.foldlM
    (fun acc p => do
      let d ← describeMetric p.1 p.2
      match d with
      | some line => (pure (acc ++ [line]) : Except PyStr (List PyStr))
      | none => pure acc)
    ([] : List PyStr)
  let currentPrs ← getPrs dat
  let prevPrs ← getPrevPrs prev
  let prs_added := currentPrs.filter (fun p => !(prevPrs.any (pyEq p)))
  let uuid ← pyGetD dat (pstr "uuid") .null
  let ocp ← pyGetD dat (pstr "ocpVersion") .null
  .ok ⟨uuid, ocp, getPrevOcp prev, prs_added, metrics⟩

/-- The `enumerate(data)` loop of `_extract_regression_details`, carrying the
immediately preceding element: records whose `is_changepoint` is not truthy
are skipped (but still become the next element's predecessor). -/
def extractDetailsAux : Option Json → List Json → Except PyStr (List RegressionDetail)
  | _, [] => .ok []
  | prev, dat :: rest => do
    let cp ← pyGetD dat (pstr "is_changepoint") .null
    if truthy cp then do
      let d ← buildDetail prev dat
      let ds ← extractDetailsAux (some dat) rest
      .ok (d :: ds)
    else
      extractDetailsAux (some dat) rest

/-- `_extract_regression_details(stdout)`: `json.loads` (failures propagate —
this function has no `try`), then the enumeration loop. -/
def extract_regression_details (loads : PyStr → Except PyStr Json)
    (stdout : PyStr) : Except PyStr (List RegressionDetail) := do
  let data ← loads stdout
  let items ← pyIter data
  extractDetailsAux none items

/-- The per-changepoint text block `_run_regression_checks` assembles. -/
def formatDetail (full_config_path : PyStr) (det : RegressionDetail) : PyStr :=
  let header :=
    [pstr "⚠️ Change detected in configuration: \x27" ++ full_config_path ++ pstr "\x27",
     pstr "UUID: " ++ pyStrJ det.uuid,
     pstr "OCP Version: " ++ pyStrJ det.ocpVersion,
     pstr "Previous OCP Version: " ++ pyStrJ det.previousOcpVersion,
     pstr "PRs added since Previous OCP Version:"]
  let prsLines :=
    if det.prs_added.isEmpty then [pstr "  - None"]
    else det.prs_added.map (fun p => pstr "  - " ++ pyStrJ p)
  let metricLines :=
    if det.metrics.isEmpty then []
    else pstr "Affected metrics:" :: det.metrics.map (fun m => pstr "  - " ++ m)
  joinWith (pstr "\n") (header ++ prsLines ++ metricLines)

/-- `_run_regression_checks`, taking the per-configuration `run_orion`
results as input (the process boundary).  Note the guard from the source:
details are extracted when `result.returncode not in (0, 3)`; a parse failure
inside `_extract_regression_details` propagates out of the whole function. -/
def run_regression_checks (loads : PyStr → Except PyStr Json)
    (results : List (PyStr × CompletedProcess)) : Except PyStr PyStr := do
  let changepoints ← results.foldlM
    (fun acc pr => do
      if pr.2.returncode ≠ 0 ∧ pr.2.returncode ≠ 3 then do
        let details ← extract_regression_details loads pr.2.stdout
        (pure (acc ++ details.map (formatDetail pr.1)) : Except PyStr (List PyStr))
      else
        pure acc)
    ([] : List PyStr)
  if changepoints.isEmpty then .ok (pstr "No changepoints found")
  else .ok (joinWith (pstr "\n\n") changepoints)

/-- A structurally valid changepoint record as far as the metric-description
extraction is concerned: the flag and the per-metric percentage changes
(stored as exact rationals; the denominator of `ℚ` is always positive). -/
structure CPRec where
  is_changepoint : Bool
  metrics : List (PyStr × ℚ)

/-- The modelled float for an exact rational. -/
def ratFloat (q : ℚ) : PyFloat := ⟨q.num, q.den⟩

/-- The JSON object for a valid changepoint record. -/
def CPRec.toJson (r : CPRec) : Json :=
  .obj [(pstr "is_changepoint", .bool r.is_changepoint),
        (pstr "metrics",
         .obj (r.metrics.map (fun m => (m.1, Json.obj [(pstr "percentage_change", Json.num (ratFloat m.2))]))))]

/-- Modelled from the spec: the line(s) one metric contributes — for a
strictly positive percentage change the "increased" line, for a strictly
negative one the "decreased" line with the absolute value, nothing for
zero. -/
def specMetricLinesOf (m : PyStr × ℚ) : List PyStr :=
  if 0 < m.2 then
    [m.1 ++ pstr " increased by " ++ fmt2 (ratFloat m.2) ++ pstr "%"]
  else if m.2 < 0 then
    [m.1 ++ pstr " decreased by " ++ fmt2 (ratFloat (-m.2)) ++ pstr "%"]
  else []

/-- Modelled from the spec: the metric-description pass in the spec's own
words — every record whose `is_changepoint` is true contributes the lines of
its metrics, in order; other records contribute nothing. -/
def specMetricDescriptions (recs : List CPRec) : List PyStr :=
  recs.flatMap (fun r =>
    if r.is_changepoint then r.metrics.flatMap specMetricLinesOf else [])

/-! ## Chart Renderer input filtering (`utils/utils.py`: `csv_to_graph`) -/

/-- The per-value conversion of `csv_to_graph`: the literal token `none`
(case-insensitive) becomes an absent value, otherwise Python `float(...)` is
attempted and a `ValueError` is also recorded as absent; absent values are
then filtered out.  `pyFloat` is the external `float` parser (`none` models
`ValueError`); the numeric type `V` is opaque to the filtering logic. -/
def parseLineValues {V : Type} (pyFloat : PyStr → Option V) (raw : List PyStr) : List V :=
  raw.filterMap (fun v => if pyLower v == pstr "none" then none else pyFloat v)

/-- The parsing loop of `csv_to_graph`: split into lines, skip blank lines and
lines with fewer than three comma-separated parts, convert and filter the
values, skip entries whose value list came out empty, and store the rest in
the `(source, metric)`-keyed dict (later lines overwrite earlier ones, as
Python dict assignment does).  The separately built `grouped_data` dict of the
source is dead code (never read) and is not modelled. -/
def csvParsed {V : Type} (pyFloat : PyStr → Option V) (csv_data : PyStr) :
    List ((PyStr × PyStr) × List V) :=
  (splitChar '\n' (pyStrip csv_data)).foldl
    (fun acc line =>
      let t := pyStrip line
      if t.isEmpty then acc
      else
        match splitChar ',' t with
        | fp :: mn :: v :: vs =>
          let nums := parseLineValues pyFloat (v :: vs)
          if nums.isEmpty then acc else setKey acc (fp, mn) nums
        | _ => acc)
    []

/-- `csv_to_graph(csv_data)`: when nothing survives parsing the function
returns the empty list; otherwise one chart is rendered per surviving entry
(`render` is the external matplotlib + base64 boundary; its `none` models the
`try/except` around `savefig` swallowing a failure without appending an
image). -/
def csv_to_graph {V I : Type} (pyFloat : PyStr → Option V)
    (render : PyStr → PyStr → List V → Option I) (csv_data : PyStr) : List I :=
  let parsed := csvParsed pyFloat csv_data
  if parsed.isEmpty then []
  else parsed.filterMap (fun e => render e.1.1 e.1.2 e.2)

/-! ## Correlation Engine -/

/-- Modelled from the spec: the Pearson helper of
`generate_correlation_plot` is imported in `orion_mcp.py` from `utils.utils`
but its definition is not among the repository's source files, so the
§4.6 contract is modelled directly: mean, centred covariance and variance of
real-valued series. -/
noncomputable def mean (l : List ℝ) : ℝ := l.sum / l.length

/-- Modelled from the spec: `Σ (aᵢ - mean a)(bᵢ - mean b)` over the paired
elements. -/
noncomputable def scov (a b : List ℝ) : ℝ :=
  ((a.zip b).map (fun p => (p.1 - mean a) * (p.2 - mean b))).sum

/-- Modelled from the spec: the (unnormalised) variance of a series. -/
noncomputable def svar (a : List ℝ) : ℝ := scov a a

open Classical in
/-- Modelled from the spec: `pearson(a, b)` — the not-a-number sentinel
(`none`) when the lengths differ, either series is shorter than 2, or either
series has zero variance; otherwise the product-moment coefficient
`cov / (σ_a · σ_b)`. -/
noncomputable def pearson (a b : List ℝ) : Option ℝ :=
  if a.length = b.length ∧ 2 ≤ a.length ∧ 2 ≤ b.length ∧ svar a ≠ 0 ∧ svar b ≠ 0 then
    some (scov a b / (Real.sqrt (svar a) * Real.sqrt (svar b)))
  else none

/-! ## Proof-side characterisations and concrete instances -/

/-- The dict-insertion step of the metric loop restated on the fields of a
valid run record (`v` is the content of the metric's `value` field). -/
def insertValS (s : Summary) (name : PyStr) (v : Json) : Except PyStr Summary :=
  match lookupKey s name with
  | none => .ok (setKey s name (.vals [v]))
  | some (.vals l) => .ok (setKey s name (.vals (l ++ [v])))
  | some (.raw _) => .error (pstr "TypeError: timestamp entry is not a metric record")

/-- `stepMetric` restated on the fields of a valid run record. -/
def stepMetricS (isolate : Option PyStr) (ts : Json) (s : Summary)
    (name : PyStr) (v : Json) : Except PyStr Summary :=
  let s' := setKey s tsKey (.raw ts)
  match isolate with
  | some iso => if iso == name then insertValS s' name v else .ok s'
  | none => insertValS s' name v

/-- Well-shapedness of a summary entry: the reserved key holds a raw
timestamp, every other key holds a value list. -/
def EntryOK (k : PyStr) (e : SEntry) : Prop :=
  if k = tsKey then ∃ j, e = SEntry.raw j else ∃ l, e = SEntry.vals l

/-- Every entry of the summary is well-shaped. -/
def SummaryOK (s : Summary) : Prop := ∀ p ∈ s, EntryOK p.1 p.2

/-- Every key of the summary is `X` or the reserved timestamp key. -/
def KeysOK (X : PyStr) (s : Summary) : Prop := ∀ p ∈ s, p.1 = X ∨ p.1 = tsKey

/-- `run["metrics"]` raises on this run record: it is a dict without the
`metrics` key, or not a dict at all. -/
def lacksMetricsKey (j : Json) : Bool :=
  match j with
  | .obj kvs => (lookupKey kvs (pstr "metrics")).isNone
  | _ => true

/-- Some element of this parsed array makes `run["metrics"]` raise. -/
def someRunLacksMetrics (j : Json) : Bool :=
  match j with
  | .arr runs => runs.any lacksMetricsKey
  | _ => false

/-- The claim C5 example record:
`{"is_changepoint": true, "metrics": {"cpu": {"percentage_change": 12.345}}}`. -/
def cpuRecJson : Json :=
  .obj [(pstr "is_changepoint", .bool true),
        (pstr "metrics", .obj [(pstr "cpu", .obj [(pstr "percentage_change", .num ⟨12345, 1000⟩)])])]

/-- `json.loads` as it behaves on the two stdout texts of the C1 scenario:
the first configuration's empty JSON array parses, anything else would be the
second configuration's payload, which the checked code never parses. -/
def loadsC1 : PyStr → Except PyStr Json := fun s =>
  if s == pstr "[]" then .ok (.arr [])
  else .error (pstr "Expecting value: line 1 column 1 (char 0)")

/-- C1 scenario, first configuration: ran and failed (exit code 1, no
changepoint records), diagnostic on stderr. -/
def resA : CompletedProcess := ⟨.listCmd [pstr "orion"], 1, pstr "[]", pstr "boom"⟩

/-- C1 scenario, second configuration: ran and found a changepoint (the
distinguished exit code 3) with one metric at +15.00%. -/
def resB : CompletedProcess :=
  ⟨.listCmd [pstr "orion"], 3,
   pstr "[\x7b\"is_changepoint\": true, \"metrics\": \x7b\"metric\": \x7b\"percentage_change\": 15.0\x7d\x7d\x7d]",
   []⟩

/-- The parsed form of `resB`'s stdout. -/
def changepointB : Json :=
  .obj [(pstr "is_changepoint", .bool true),
        (pstr "metrics", .obj [(pstr "metric", .obj [(pstr "percentage_change", .num ⟨15, 1⟩)])])]

/-- A valid run record with timestamp `t1` and one metric. -/
def r1C : MRun := ⟨.str (pstr "t1"), [(pstr "m", .str (pstr "v"))]⟩

/-- A valid run record with timestamp `t2` and an empty metric mapping. -/
def r2C : MRun := ⟨.str (pstr "t2"), []⟩

/-- A spawn oracle that always fails with `FileNotFoundError` (an `OSError`),
as `create_subprocess_exec` does when the executable is absent. -/
def spawnFNF : PyCmd → Bool → Option EnvMap → Except PyExc SpawnResult :=
  fun _ _ _ => .error (.osError (pstr "[Errno 2] No such file or directory: \x27orion\x27"))

/-! ## Basic lemmas -/

@[simp]
theorem except_bind_ok {ε α β : Type} (a : α) (f : α → Except ε β) :
    (Except.ok a >>= f : Except ε β) = f a := rfl

@[simp]
theorem except_bind_err {ε α β : Type} (e : ε) (f : α → Except ε β) :
    (Except.error e >>= f : Except ε β) = .error e := rfl

@[simp]
theorem except_pure_eq {ε α : Type} (a : α) : (pure a : Except ε α) = .ok a := rfl

theorem lookupKey_setKey_self {κ α : Type} [BEq κ] [LawfulBEq κ]
    (d : List (κ × α)) (k : κ) (v : α) : lookupKey (setKey d k v) k = some v := by
  induction d with
  | nil => simp [setKey, lookupKey]
  | cons a rest ih =>
    obtain ⟨k', v'⟩ := a
    by_cases h : k' = k
    · simp [setKey, lookupKey, h]
    · simp [setKey, lookupKey, h, ih]

theorem lookupKey_setKey_ne {κ α : Type} [BEq κ] [LawfulBEq κ]
    (d : List (κ × α)) (k k' : κ) (v : α) (h : k' ≠ k) :
    lookupKey (setKey d k v) k' = lookupKey d k' := by
  induction d with
  | nil => simp [setKey, lookupKey, Ne.symm h]
  | cons a rest ih =>
    obtain ⟨ka, va⟩ := a
    by_cases hk : ka = k
    · subst hk
      simp [setKey, lookupKey, Ne.symm h, h]
    · by_cases hk' : ka = k'
      · subst hk'
        simp [setKey, lookupKey, h]
      · simp [setKey, lookupKey, hk, hk', ih]

theorem lookupKey_eq_none {κ α : Type} [BEq κ] [LawfulBEq κ]
    (d : List (κ × α)) (k : κ) (h : k ∉ d.map Prod.fst) : lookupKey d k = none := by
  induction d with
  | nil => rfl
  | cons a rest ih =>
    simp only [List.map_cons, List.mem_cons] at h
    push_neg at h
    simp [lookupKey, Ne.symm h.1, ih h.2]

theorem lookupKey_mem {κ α : Type} [BEq κ] [LawfulBEq κ]
    (d : List (κ × α)) (k : κ) (v : α) (h : lookupKey d k = some v) : (k, v) ∈ d := by
  induction d with
  | nil => simp [lookupKey] at h
  | cons a rest ih =>
    obtain ⟨ka, va⟩ := a
    by_cases hk : ka = k
    · subst hk
      simp only [lookupKey, beq_self_eq_true, if_pos] at h
      cases h
      exact List.mem_cons_self _ _
    · simp only [lookupKey] at h
      rw [show (ka == k) = false by simp [hk]] at h
      simp only [Bool.false_eq_true, if_false] at h
      exact List.mem_cons_of_mem _ (ih h)

theorem mem_setKey {κ α : Type} [BEq κ] [LawfulBEq κ]
    (d : List (κ × α)) (k : κ) (v : α) (p : κ × α) (h : p ∈ setKey d k v) :
    p = (k, v) ∨ p ∈ d := by
  induction d with
  | nil => simp [setKey] at h; simp [h]
  | cons a rest ih =>
    obtain ⟨ka, va⟩ := a
    by_cases hk : ka = k
    · subst hk
      simp only [setKey, beq_self_eq_true, if_pos] at h
      rcases List.mem_cons.mp h with h | h
      · exact Or.inl h
      · exact Or.inr (List.mem_cons_of_mem _ h)
    · simp only [setKey] at h
      rw [show (ka == k) = false by simp [hk]] at h
      simp only [Bool.false_eq_true, if_false] at h
      rcases List.mem_cons.mp h with h | h
      · exact Or.inr (h ▸ List.mem_cons_self _ _)
      · rcases ih h with h | h
        · exact Or.inl h
        · exact Or.inr (List.mem_cons_of_mem _ h)

theorem isPrefixList_append (p q : PyStr) : isPrefixList p (p ++ q) = true := by
  induction p with
  | nil => rfl
  | cons c rest ih => simp [isPrefixList, ih]

@[simp]
theorem exceptErrB_error {ε α : Type} (e : ε) : exceptErrB (.error e : Except ε α) = true := rfl

@[simp]
theorem exceptErrB_ok {ε α : Type} (a : α) : exceptErrB (.ok a : Except ε α) = false := rfl

theorem foldlM_error_absorb {σ α : Type} (f : σ → α → Except PyStr σ) (l : List α) (x : α)
    (hf : ∀ s, exceptErrB (f s x) = true) :
    ∀ (s₀ : σ), x ∈ l → exceptErrB (l.foldlM f s₀) = true := by
  induction l with
  | nil => intro s₀ hx; cases hx
  | cons y ys ih =>
    intro s₀ hx
    rw [List.foldlM_cons]
    rcases List.mem_cons.mp hx with h | h
    · subst h
      cases hfy : f s₀ x with
      | error e => simp [hfy]
      | ok s₁ => have := hf s₀; rw [hfy] at this; simp at this
    · cases hfy : f s₀ y with
      | error e => simp [hfy]
      | ok s₁ => simpa [hfy] using ih s₁ h

theorem stepRun_err_of_lacksMetrics (run : Json) (h : lacksMetricsKey run = true)
    (iso : Option PyStr) (s : Summary) : exceptErrB (stepRun iso s run) = true := by
  cases run with
  | obj kvs =>
    simp only [lacksMetricsKey, Option.isNone_iff_eq_none] at h
    simp [stepRun, pyGetItem, h]
  | null => simp [stepRun, pyGetItem]
  | bool b => simp [stepRun, pyGetItem]
  | num f => simp [stepRun, pyGetItem]
  | str t => simp [stepRun, pyGetItem]
  | arr l => simp [stepRun, pyGetItem]

theorem isErrorString_of_err (loads : PyStr → Except PyStr Json)
    (cp : CompletedProcess) (iso : Option PyStr)
    (h : exceptErrB (summarizePipeline loads cp iso) = true) :
    isErrorString (summarize_result loads cp iso) = true := by
  unfold summarize_result
  cases hp : summarizePipeline loads cp iso with
  | error e => simp [isErrorString, isPrefixList_append]
  | ok s => rw [hp] at h; simp at h

theorem extract_err_of_noDelim (loads : PyStr → Except PyStr Json) (t : PyStr)
    (h : findDelimIdx (extractedLines t) = none) :
    extract_json_block loads t = .error sysNotDefined := by
  unfold extract_json_block
  cases hu : (extractedLines t).any (fun l => containsSub uuidMissingMsg l) <;> simp [hu, h]

theorem extract_err_of_emptyText (loads : PyStr → Except PyStr Json) (t : PyStr) (i : Nat)
    (hd : findDelimIdx (extractedLines t) = some i)
    (h : extractedText t = []) :
    extract_json_block loads t = .error sysNotDefined := by
  have hext : extractedText t = pyStrip (joinWith (pstr "\n") ((extractedLines t).drop (i + 1))) := by
    unfold extractedText; rw [hd]
  rw [hext] at h
  unfold extract_json_block
  cases hu : (extractedLines t).any (fun l => containsSub uuidMissingMsg l) <;>
    simp [hu, hd, h, List.isEmpty_nil]

theorem extract_err_of_loadsFail (loads : PyStr → Except PyStr Json) (t : PyStr) (i : Nat)
    (hd : findDelimIdx (extractedLines t) = some i)
    (h : exceptErrB (loads (extractedText t)) = true) :
    extract_json_block loads t = .error sysNotDefined := by
  have hext : extractedText t = pyStrip (joinWith (pstr "\n") ((extractedLines t).drop (i + 1))) := by
    unfold extractedText; rw [hd]
  rw [hext] at h
  unfold extract_json_block
  cases hu : (extractedLines t).any (fun l => containsSub uuidMissingMsg l)
  · simp only [hu, Bool.false_eq_true, if_false, hd]
    cases he : (pyStrip (joinWith (pstr "\n") ((extractedLines t).drop (i + 1)))).isEmpty
    · cases hl : loads (pyStrip (joinWith (pstr "\n") ((extractedLines t).drop (i + 1)))) with
      | error e => simp [he, hl]
      | ok j => rw [hl] at h; simp at h
    · simp [he]
  · simp [hu]

theorem pyGetItem_value (v : Json) :
    pyGetItem (Json.obj [(pstr "value", v)]) (pstr "value") = .ok v := rfl

theorem pyGetItem_run_ts (r : MRun) :
    pyGetItem (MRun.toJson r) tsKey = .ok r.timestamp := rfl

theorem pyGetItem_run_metrics (r : MRun) :
    pyGetItem (MRun.toJson r) (pstr "metrics") =
      .ok (.obj (r.metrics.map (fun p => (p.1, Json.obj [(pstr "value", p.2)])))) := rfl

theorem insertMetricValue_encode (s : Summary) (name : PyStr) (v : Json) :
    insertMetricValue s name (Json.obj [(pstr "value", v)]) = insertValS s name v := by
  unfold insertMetricValue insertValS
  cases h : lookupKey s name with
  | none => simp [pyGetItem_value]
  | some e => cases e <;> simp [pyGetItem_value]

theorem stepMetric_toJson (iso : Option PyStr) (r : MRun) (s : Summary)
    (name : PyStr) (v : Json) :
    stepMetric iso (MRun.toJson r) s name (Json.obj [(pstr "value", v)]) =
      stepMetricS iso r.timestamp s name v := by
  unfold stepMetric stepMetricS
  rw [pyGetItem_run_ts]
  cases iso with
  | none => simp [insertMetricValue_encode]
  | some i =>
    simp only [except_bind_ok]
    by_cases hi : (i == name) = true <;> simp [hi, insertMetricValue_encode]

theorem stepRun_toJson (iso : Option PyStr) (s : Summary) (r : MRun) :
    stepRun iso s (MRun.toJson r) =
      r.metrics.foldlM (fun s p => stepMetricS iso r.timestamp s p.1 p.2) s := by
  unfold stepRun
  rw [pyGetItem_run_metrics]
  simp only [except_bind_ok, pyItems]
  rw [List.foldlM_map]
  have hf : (fun (s : Summary) (p : PyStr × Json) =>
      stepMetric iso (MRun.toJson r) s
        ((fun q => (q.1, Json.obj [(pstr "value", q.2)])) p).1
        ((fun q => (q.1, Json.obj [(pstr "value", q.2)])) p).2) =
      (fun s p => stepMetricS iso r.timestamp s p.1 p.2) := by
    funext s p
    exact stepMetric_toJson iso r s p.1 p.2
  rw [hf]

theorem summaryOK_nil : SummaryOK [] := by
  intro p hp; cases hp

theorem summaryOK_setKey (s : Summary) (k : PyStr) (e : SEntry)
    (hs : SummaryOK s) (he : EntryOK k e) : SummaryOK (setKey s k e) := by
  intro p hp
  rcases mem_setKey s k e p hp with h | h
  · rw [h]; exact he
  · exact hs p h

theorem entryOK_raw (j : Json) : EntryOK tsKey (.raw j) := by
  simp [EntryOK]

theorem entryOK_vals (k : PyStr) (hk : k ≠ tsKey) (l : List Json) :
    EntryOK k (.vals l) := by
  simp [EntryOK, hk]

theorem entryOK_of_lookup (s : Summary) (k : PyStr) (e : SEntry)
    (hs : SummaryOK s) (h : lookupKey s k = some e) : EntryOK k e :=
  hs (k, e) (lookupKey_mem s k e h)

theorem insertValS_ok (s : Summary) (name : PyStr) (v : Json)
    (hs : SummaryOK s) (hn : name ≠ tsKey) :
    ∃ s', insertValS s name v = .ok s' ∧ SummaryOK s' ∧
      lookupKey s' tsKey = lookupKey s tsKey ∧
      (∀ p ∈ s', p.1 = name ∨ p.1 ∈ s.map Prod.fst) := by
  have hkeys : ∀ (w : SEntry) (p : PyStr × SEntry), p ∈ setKey s name w →
      p.1 = name ∨ p.1 ∈ s.map Prod.fst := by
    intro w p hp
    rcases mem_setKey s name w p hp with h | h
    · left; rw [h]
    · right; exact List.mem_map_of_mem Prod.fst h
  unfold insertValS
  cases h : lookupKey s name with
  | none =>
    exact ⟨setKey s name (.vals [v]), rfl,
      summaryOK_setKey _ _ _ hs (entryOK_vals name hn [v]),
      lookupKey_setKey_ne s name tsKey _ (Ne.symm hn), hkeys _⟩
  | some e =>
    have he : EntryOK name e := entryOK_of_lookup s name e hs h
    simp only [EntryOK, if_neg hn] at he
    obtain ⟨l, rfl⟩ := he
    exact ⟨setKey s name (.vals (l ++ [v])), rfl,
      summaryOK_setKey _ _ _ hs (entryOK_vals name hn _),
      lookupKey_setKey_ne s name tsKey _ (Ne.symm hn), hkeys _⟩

theorem foldMetricsS_none (ms : List (PyStr × Json)) :
    ∀ (s : Summary) (ts : Json), SummaryOK s → (∀ m ∈ ms, m.1 ≠ tsKey) →
    ∃ s', ms.foldlM (fun s p => stepMetricS none ts s p.1 p.2) s = .ok s' ∧ SummaryOK s' ∧
      lookupKey s' tsKey = (if ms.isEmpty then lookupKey s tsKey else some (.raw ts)) := by
  induction ms with
  | nil =>
    intro s ts hs _
    exact ⟨s, by simp [List.foldlM_nil], hs, by simp⟩
  | cons m rest ih =>
    intro s ts hs hm
    obtain ⟨name, v⟩ := m
    have hn : name ≠ tsKey := hm _ (List.mem_cons_self _ _)
    have hOK₀ : SummaryOK (setKey s tsKey (SEntry.raw ts)) :=
      summaryOK_setKey _ _ _ hs (entryOK_raw ts)
    obtain ⟨s₁, hins, hOK₁, hts₁, _⟩ :=
      insertValS_ok (setKey s tsKey (SEntry.raw ts)) name v hOK₀ hn
    have hts : lookupKey s₁ tsKey = some (.raw ts) := by
      rw [hts₁, lookupKey_setKey_self]
    rw [List.foldlM_cons]
    have hstep : stepMetricS none ts s name v = .ok s₁ := hins
    rw [hstep, except_bind_ok]
    obtain ⟨s', hfold, hOK', hts'⟩ :=
      ih s₁ ts hOK₁ (fun m hm' => hm _ (List.mem_cons_of_mem _ hm'))
    refine ⟨s', hfold, hOK', ?_⟩
    rw [hts']
    cases rest.isEmpty <;> simp [hts]

theorem foldMetricsS_iso (X : PyStr) (ms : List (PyStr × Json)) :
    ∀ (s : Summary) (ts : Json), SummaryOK s → KeysOK X s → (∀ m ∈ ms, m.1 ≠ tsKey) →
    ∃ s', ms.foldlM (fun s p => stepMetricS (some X) ts s p.1 p.2) s = .ok s' ∧
      SummaryOK s' ∧ KeysOK X s' := by
  induction ms with
  | nil =>
    intro s ts hs hk _
    exact ⟨s, by simp [List.foldlM_nil], hs, hk⟩
  | cons m rest ih =>
    intro s ts hs hk hm
    obtain ⟨name, v⟩ := m
    have hn : name ≠ tsKey := hm _ (List.mem_cons_self _ _)
    have hOK₀ : SummaryOK (setKey s tsKey (SEntry.raw ts)) :=
      summaryOK_setKey _ _ _ hs (entryOK_raw ts)
    have hK₀ : KeysOK X (setKey s tsKey (SEntry.raw ts)) := by
      intro p hp
      rcases mem_setKey s tsKey (SEntry.raw ts) p hp with h | h
      · right; rw [h]
      · exact hk p h
    rw [List.foldlM_cons]
    by_cases hx : (X == name) = true
    · have hxe : X = name := by simpa using hx
      obtain ⟨s₁, hins, hOK₁, _, hkeys₁⟩ :=
        insertValS_ok (setKey s tsKey (SEntry.raw ts)) name v hOK₀ hn
      have hK₁ : KeysOK X s₁ := by
        intro p hp
        rcases hkeys₁ p hp with h | h
        · left; rw [h, hxe]
        · obtain ⟨q, hq, hq1⟩ := List.mem_map.mp h
          rcases hK₀ q hq with h' | h'
          · left; rw [← hq1]; exact h'
          · right; rw [← hq1]; exact h'
      have hstep : stepMetricS (some X) ts s name v = .ok s₁ := by
        unfold stepMetricS
        simp only [hx, if_true]
        exact hins
      rw [hstep, except_bind_ok]
      exact ih s₁ ts hOK₁ hK₁ (fun m hm' => hm _ (List.mem_cons_of_mem _ hm'))
    · have hstep : stepMetricS (some X) ts s name v = .ok (setKey s tsKey (SEntry.raw ts)) := by
        unfold stepMetricS
        simp [hx]
      rw [hstep, except_bind_ok]
      exact ih _ ts hOK₀ hK₀ (fun m hm' => hm _ (List.mem_cons_of_mem _ hm'))

theorem foldRuns_none (runs : List MRun) :
    ∀ s, SummaryOK s → (∀ u ∈ runs, ∀ m ∈ u.metrics, m.1 ≠ tsKey) →
    ∃ s', (runs.map MRun.toJson).foldlM (stepRun none) s = .ok s' ∧ SummaryOK s' := by
  induction runs with
  | nil => intro s hs _; exact ⟨s, by simp [List.foldlM_nil], hs⟩
  | cons r rest ih =>
    intro s hs hv
    rw [List.map_cons, List.foldlM_cons, stepRun_toJson]
    obtain ⟨s₁, hfold, hOK₁, _⟩ :=
      foldMetricsS_none r.metrics s r.timestamp hs
        (fun m hm => hv r (List.mem_cons_self _ _) m hm)
    rw [hfold, except_bind_ok]
    exact ih s₁ hOK₁ (fun u hu => hv u (List.mem_cons_of_mem _ hu))

theorem foldRuns_iso (X : PyStr) (runs : List MRun) :
    ∀ s, SummaryOK s → KeysOK X s → (∀ u ∈ runs, ∀ m ∈ u.metrics, m.1 ≠ tsKey) →
    ∃ s', (runs.map MRun.toJson).foldlM (stepRun (some X)) s = .ok s' ∧ KeysOK X s' := by
  induction runs with
  | nil => intro s hs hk _; exact ⟨s, by simp [List.foldlM_nil], hk⟩
  | cons r rest ih =>
    intro s hs hk hv
    rw [List.map_cons, List.foldlM_cons, stepRun_toJson]
    obtain ⟨s₁, hfold, hOK₁, hK₁⟩ :=
      foldMetricsS_iso X r.metrics s r.timestamp hs hk
        (fun m hm => hv r (List.mem_cons_self _ _) m hm)
    rw [hfold, except_bind_ok]
    exact ih s₁ hOK₁ hK₁ (fun u hu => hv u (List.mem_cons_of_mem _ hu))

/-- C2 (amended): summarize on an empty run array yields the empty summary,
and on a non-empty array whose last run record carries a non-empty metrics
mapping, the timestamp entry equals that last run's timestamp. -/
theorem spec_C2 :
    summarizeJson (Json.arr []) none = .ok [] ∧
    ∀ (rs : List MRun) (r : MRun),
      (∀ u ∈ rs ++ [r], ∀ m ∈ u.metrics, m.1 ≠ tsKey) →
      r.metrics.isEmpty = false →
      summaryTimestamp (summarizeJson (Json.arr ((rs ++ [r]).map MRun.toJson)) none) =
        some (.raw r.timestamp) := by
  constructor
  · rfl
  intro rs r hv hne
  have hlen : ((rs ++ [r]).map MRun.toJson).length ≠ 0 := by simp
  unfold summarizeJson
  simp only [pyLen, except_bind_ok]
  rw [if_neg hlen]
  simp only [pyIter, except_bind_ok]
  rw [List.map_append, List.foldlM_append]
  obtain ⟨s₁, hfold, hOK₁⟩ :=
    foldRuns_none rs [] summaryOK_nil (fun u hu => hv u (List.mem_append_left _ hu))
  rw [hfold, except_bind_ok]
  simp only [List.map_cons, List.map_nil, List.foldlM_cons, List.foldlM_nil]
  rw [stepRun_toJson]
  obtain ⟨s', hfold', hOK', hts'⟩ :=
    foldMetricsS_none r.metrics s₁ r.timestamp hOK₁
      (fun m hm => hv r (List.mem_append_right _ (List.mem_cons_self _ _)) m hm)
  rw [hfold', except_bind_ok, except_pure_eq]
  rw [hne] at hts'
  simp only [Bool.false_eq_true, if_false] at hts'
  simpa [summaryTimestamp] using hts'

/-- C2 counterexample: with a second run whose metrics mapping is empty, the
timestamp entry keeps the first run's value `t1`, not the last run's `t2`. -/
theorem spec_C2_cx :
    summarizeJson (Json.arr [MRun.toJson r1C, MRun.toJson r2C]) none =
      .ok [(tsKey, .raw (.str (pstr "t1"))), (pstr "m", .vals [.str (pstr "v")])] ∧
    pstr "t1" ≠ pstr "t2" := ⟨rfl, by decide⟩

theorem spec_C2_witness :
    summarizeJson (Json.arr []) none = .ok [] ∧
    summaryTimestamp (summarizeJson (Json.arr (([] ++ [r1C]).map MRun.toJson)) none) =
      some (.raw (Json.str (pstr "t1"))) :=
  ⟨spec_C2.1, spec_C2.2 [] r1C (by decide) (by decide)⟩

/-- C6: with `isolate = X`, every key of the resulting mapping is `X` or
`timestamp`. -/
theorem spec_C6 (runs : List MRun) (X : PyStr)
    (hv : ∀ u ∈ runs, ∀ m ∈ u.metrics, m.1 ≠ tsKey)
    (hX : ∃ u ∈ runs, X ∈ u.metrics.map Prod.fst) :
    keysSubset (summarizeJson (Json.arr (runs.map MRun.toJson)) (some X)) X = true := by
  unfold summarizeJson
  simp only [pyLen, except_bind_ok]
  by_cases h0 : (runs.map MRun.toJson).length = 0
  · rw [if_pos h0]; rfl
  · rw [if_neg h0]
    simp only [pyIter, except_bind_ok]
    obtain ⟨s', hfold, hK'⟩ :=
      foldRuns_iso X runs [] summaryOK_nil (by intro p hp; cases hp) hv
    rw [hfold]
    unfold keysSubset
    rw [List.all_eq_true]
    intro p hp
    rcases hK' p hp with h | h <;> simp [h]

theorem spec_C6_witness :
    keysSubset (summarizeJson (Json.arr ([r1C].map MRun.toJson)) (some (pstr "m"))) (pstr "m") = true :=
  spec_C6 [r1C] (pstr "m") (by decide) (by decide)

theorem extract_json_block_ok_or_err (loads : PyStr → Except PyStr Json) (t : PyStr)
    (i : Nat) (j : Json) (hd : findDelimIdx (extractedLines t) = some i)
    (hj : loads (extractedText t) = .ok j) :
    extract_json_block loads t = .error sysNotDefined ∨ extract_json_block loads t = .ok j := by
  have hext : extractedText t = pyStrip (joinWith (pstr "\n") ((extractedLines t).drop (i + 1))) := by
    unfold extractedText; rw [hd]
  rw [hext] at hj
  unfold extract_json_block
  cases hu : (extractedLines t).any (fun l => containsSub uuidMissingMsg l)
  · simp only [hu, Bool.false_eq_true, if_false, hd]
    cases he : (pyStrip (joinWith (pstr "\n") ((extractedLines t).drop (i + 1)))).isEmpty
    · rw [hj]; right; simp [he]
    · left; simp [he]
  · left; simp [hu]

theorem summarizeJson_err_of_lacksMetrics (j : Json)
    (hbad : someRunLacksMetrics j = true) (iso : Option PyStr) :
    exceptErrB (summarizeJson j iso) = true := by
  cases j with
  | arr runs =>
    simp only [someRunLacksMetrics] at hbad
    obtain ⟨x, hx, hlx⟩ := List.any_eq_true.mp hbad
    unfold summarizeJson
    simp only [pyLen, except_bind_ok]
    have hlen : runs.length ≠ 0 := by
      intro h
      rw [List.length_eq_zero] at h
      subst h
      cases hx
    rw [if_neg hlen]
    simp only [pyIter, except_bind_ok]
    exact foldlM_error_absorb (stepRun iso) runs x
      (fun s => stepRun_err_of_lacksMetrics x hlx iso s) [] hx
  | null => simp [someRunLacksMetrics] at hbad
  | bool b => simp [someRunLacksMetrics] at hbad
  | num f => simp [someRunLacksMetrics] at hbad
  | str s => simp [someRunLacksMetrics] at hbad
  | obj kvs => simp [someRunLacksMetrics] at hbad

/-- C3: whenever the stdout has no delimiter line, or the extracted payload
is empty, or `json.loads` fails on it, or some parsed run record lacks the
`metrics` key, `summarize_result` returns the string-typed error value (with
its `"Error : "` preamble) — no exception escapes and no empty summary is
silently returned. -/
theorem spec_C3 (loads : PyStr → Except PyStr Json) (cp : CompletedProcess) (iso : Option PyStr)
    (h : findDelimIdx (extractedLines cp.stdout) = none ∨
         extractedText cp.stdout = [] ∨
         exceptErrB (loads (extractedText cp.stdout)) = true ∨
         (∃ j, loads (extractedText cp.stdout) = .ok j ∧ someRunLacksMetrics j = true)) :
    isErrorString (summarize_result loads cp iso) = true := by
  apply isErrorString_of_err
  unfold summarizePipeline
  rcases h with h | h | h | ⟨j, hj, hbad⟩
  · rw [extract_err_of_noDelim loads cp.stdout h]; simp
  · cases hd : findDelimIdx (extractedLines cp.stdout) with
    | none => rw [extract_err_of_noDelim loads cp.stdout hd]; simp
    | some i => rw [extract_err_of_emptyText loads cp.stdout i hd h]; simp
  · cases hd : findDelimIdx (extractedLines cp.stdout) with
    | none => rw [extract_err_of_noDelim loads cp.stdout hd]; simp
    | some i => rw [extract_err_of_loadsFail loads cp.stdout i hd h]; simp
  · cases hd : findDelimIdx (extractedLines cp.stdout) with
    | none => rw [extract_err_of_noDelim loads cp.stdout hd]; simp
    | some i =>
      rcases extract_json_block_ok_or_err loads cp.stdout i j hd hj with he | he
      · rw [he]; simp
      · rw [he, except_bind_ok]
        exact summarizeJson_err_of_lacksMetrics j hbad iso

theorem spec_C3_witness :
    isErrorString (summarize_result (fun _ => .error (pstr "Expecting value"))
      ⟨.listCmd [], 1, pstr "garbage", []⟩ none) = true :=
  spec_C3 _ _ none (Or.inl (by decide))

theorem ratFloat_isPos (q : ℚ) : (ratFloat q).isPos = decide (0 < q) := by
  simp only [PyFloat.isPos, ratFloat]
  exact decide_eq_decide.mpr Rat.num_pos

theorem ratFloat_isNeg (q : ℚ) : (ratFloat q).isNeg = decide (q < 0) := by
  simp only [PyFloat.isNeg, ratFloat]
  exact decide_eq_decide.mpr Rat.num_neg

theorem ratFloat_pabs (q : ℚ) (hn : q < 0) : (ratFloat q).pabs = ratFloat (-q) := by
  have hnum : q.num < 0 := Rat.num_neg.mpr hn
  simp only [PyFloat.pabs, ratFloat, PyFloat.mk.injEq]
  constructor
  · rw [Rat.neg_num]; omega
  · rw [Rat.neg_den]

theorem describeMetric_encode (name : PyStr) (q : ℚ) :
    describeMetric name (Json.obj [(pstr "percentage_change", Json.num (ratFloat q))]) =
      .ok (if 0 < q then some (name ++ pstr " increased by " ++ fmt2 (ratFloat q) ++ pstr "%")
           else if q < 0 then some (name ++ pstr " decreased by " ++ fmt2 (ratFloat (-q)) ++ pstr "%")
           else none) := by
  unfold describeMetric
  have h1 : pyGetD (Json.obj [(pstr "percentage_change", Json.num (ratFloat q))])
      (pstr "percentage_change") (.num ⟨0, 1⟩) = .ok (.num (ratFloat q)) := rfl
  rw [h1, except_bind_ok]
  simp only [jsonNumVal, except_bind_ok]
  by_cases hp : 0 < q
  · simp [ratFloat_isPos, hp]
  · by_cases hn : q < 0
    · simp [ratFloat_isPos, ratFloat_isNeg, hp, hn, ratFloat_pabs q hn]
    · simp [ratFloat_isPos, ratFloat_isNeg, hp, hn]

theorem foldDescribe (ms : List (PyStr × ℚ)) :
    ∀ acc : List PyStr,
    (ms.map (fun m => (m.1, Json.obj [(pstr "percentage_change", Json.num (ratFloat m.2))]))).foldlM
      (fun acc p => do
        let d ← describeMetric p.1 p.2
        match d with
        | some line => (pure (acc ++ [line]) : Except PyStr (List PyStr))
        | none => pure acc) acc
      = .ok (acc ++ ms.flatMap specMetricLinesOf) := by
  induction ms with
  | nil => intro acc; simp [List.foldlM_nil]
  | cons m rest ih =>
    intro acc
    obtain ⟨name, q⟩ := m
    rw [List.map_cons, List.foldlM_cons]
    rw [describeMetric_encode, except_bind_ok]
    by_cases hp : 0 < q
    · simp only [if_pos hp]
      exact (ih (acc ++ [name ++ pstr " increased by " ++ fmt2 (ratFloat q) ++ pstr "%"])).trans
        (by simp [specMetricLinesOf, hp])
    · by_cases hn : q < 0
      · simp only [if_neg hp, if_pos hn]
        exact (ih (acc ++ [name ++ pstr " decreased by " ++ fmt2 (ratFloat (-q)) ++ pstr "%"])).trans
          (by simp [specMetricLinesOf, hp, hn])
      · simp only [if_neg hp, if_neg hn]
        exact (ih acc).trans (by simp [specMetricLinesOf, hp, hn])

theorem buildDetail_cp (op : Option CPRec) (r : CPRec) :
    buildDetail (op.map CPRec.toJson) (CPRec.toJson r) =
      .ok ⟨.null, .null, .null, [], r.metrics.flatMap specMetricLinesOf⟩ := by
  unfold buildDetail
  have hm : pyGetD (CPRec.toJson r) (pstr "metrics") (.obj []) =
      .ok (.obj (r.metrics.map (fun m => (m.1, Json.obj [(pstr "percentage_change", Json.num (ratFloat m.2))])))) := rfl
  rw [hm, except_bind_ok]
  simp only [pyItems, except_bind_ok]
  rw [foldDescribe r.metrics []]
  simp only [List.nil_append, except_bind_ok]
  have hprs : getPrs (CPRec.toJson r) = .ok [] := rfl
  rw [hprs, except_bind_ok]
  have hpp : getPrevPrs (op.map CPRec.toJson) = .ok [] := by
    cases op with
    | none => rfl
    | some p => rfl
  rw [hpp, except_bind_ok]
  have hu : pyGetD (CPRec.toJson r) (pstr "uuid") .null = .ok .null := rfl
  rw [hu, except_bind_ok]
  have ho : pyGetD (CPRec.toJson r) (pstr "ocpVersion") .null = .ok .null := rfl
  rw [ho, except_bind_ok]
  have hpo : getPrevOcp (op.map CPRec.toJson) = .null := by cases op <;> rfl
  rw [hpo]
  rfl

theorem extractDetails_cp (recs : List CPRec) :
    ∀ op : Option CPRec,
    ∃ ds, extractDetailsAux (op.map CPRec.toJson) (recs.map CPRec.toJson) = .ok ds ∧
      (ds.map RegressionDetail.metrics).flatten = specMetricDescriptions recs := by
  induction recs with
  | nil => intro op; exact ⟨[], rfl, rfl⟩
  | cons r rest ih =>
    intro op
    have hcp : pyGetD (CPRec.toJson r) (pstr "is_changepoint") .null =
        .ok (.bool r.is_changepoint) := rfl
    simp only [List.map_cons, extractDetailsAux]
    rw [hcp, except_bind_ok]
    obtain ⟨ds, hds, hflat⟩ := ih (some r)
    by_cases hb : r.is_changepoint
    · simp only [truthy, hb, if_true]
      rw [buildDetail_cp op r]
      simp only [except_bind_ok]
      refine ⟨⟨.null, .null, .null, [], r.metrics.flatMap specMetricLinesOf⟩ :: ds, ?_, ?_⟩
      · rw [show (some (CPRec.toJson r)) = (Option.map CPRec.toJson (some r)) from rfl, hds]
        rfl
      · simp [specMetricDescriptions, hb, hflat]
    · simp only [truthy, Bool.if_false_left, hb]
      refine ⟨ds, ?_, ?_⟩
      · simpa using hds
      · simp [specMetricDescriptions, hb, hflat]

/-- C5: for every array of changepoint records, the metric descriptions the
detail extraction emits are exactly the spec's: per changepoint record, per
metric, the "increased"/"decreased by |change| formatted to 2 decimals"
lines, nothing for a zero change; and on the claim's concrete input the
output is exactly `["cpu increased by 12.34%"]`. -/
theorem spec_C5 :
    (∀ recs : List CPRec, ∃ ds,
      extractDetailsAux none (recs.map CPRec.toJson) = .ok ds ∧
      (ds.map RegressionDetail.metrics).flatten = specMetricDescriptions recs) ∧
    extractDetailsAux none [cpuRecJson] =
      .ok [⟨.null, .null, .null, [], [pstr "cpu increased by 12.34%"]⟩] := by
  constructor
  · intro recs
    exact extractDetails_cp recs none
  · rfl

/-- C1 (code bug): on the claim's scenario — first configuration exits 1
with no changepoint records, second exits 3 (the distinguished changepoint
code) with one metric at +15.00% — `_run_regression_checks` answers
"No changepoints found": its guard `returncode not in (0, 3)` skips the
changepoint result, even though the extraction on that result's stdout
would have produced exactly the "metric increased by 15.00%" line. -/
theorem spec_C1 :
    run_regression_checks loadsC1
      [(pstr "/orion/examples/cfgA.yaml", resA), (pstr "/orion/examples/cfgB.yaml", resB)] =
      .ok (pstr "No changepoints found") ∧
    extractDetailsAux none [changepointB] =
      .ok [⟨.null, .null, .null, [], [pstr "metric increased by 15.00%"]⟩] :=
  ⟨rfl, rfl⟩

theorem foldl_fixed {α β : Type} (f : β → α → β) (l : List α)
    (h : ∀ s, ∀ x ∈ l, f s x = s) : ∀ b, l.foldl f b = b := by
  induction l with
  | nil => intro b; rfl
  | cons x xs ih =>
    intro b
    rw [List.foldl_cons, h b x (List.mem_cons_self _ _)]
    exact ih (fun s y hy => h s y (List.mem_cons_of_mem _ hy)) b

theorem csvParsed_nil {V : Type} (pyFloat : PyStr → Option V) (csv : PyStr)
    (h : ∀ line ∈ splitChar '\n' (pyStrip csv),
      parseLineValues pyFloat ((splitChar ',' (pyStrip line)).drop 2) = []) :
    csvParsed pyFloat csv = [] := by
  unfold csvParsed
  apply foldl_fixed
  intro s line hline
  have hv := h line hline
  by_cases hie : (pyStrip line).isEmpty = true
  · simp [hie]
  · rcases hsp : splitChar ',' (pyStrip line) with _ | ⟨fp, _ | ⟨mn, _ | ⟨v, vs⟩⟩⟩
    · simp [hie, hsp]
    · simp [hie, hsp]
    · simp [hie, hsp]
    · rw [hsp] at hv
      simp only [List.drop] at hv
      simp [hie, hsp, hv]

/-- C4: when every metric value of every row filters away (absent "none"
markers and unparseable numbers), the single-series renderer produces zero
images (and, being total, raises nothing). -/
theorem spec_C4 {V I : Type} (pyFloat : PyStr → Option V)
    (render : PyStr → PyStr → List V → Option I) (csv : PyStr)
    (h : ∀ line ∈ splitChar '\n' (pyStrip csv),
      parseLineValues pyFloat ((splitChar ',' (pyStrip line)).drop 2) = []) :
    csv_to_graph pyFloat render csv = [] := by
  unfold csv_to_graph
  rw [csvParsed_nil pyFloat csv h]
  rfl

theorem spec_C4_witness :
    csv_to_graph (fun _ => (none : Option Unit)) (fun _ _ _ => (none : Option Unit))
      (pstr "a,b,c") = [] :=
  spec_C4 _ _ _ (by decide)

/-- C7 (amended): when the command's type matches the shell flag and the
spawn attempt raises `OSError` or `SubprocessError` (executable not found,
permission denied), `run_command_async` returns a `CompletedProcess` with
exit code 1, empty stdout and the exception's text on stderr, raising
nothing and leaving the ambient environment unchanged; a command whose type
does not match the shell flag instead raises `TypeError` (see the
counterexample). -/
theorem spec_C7 (spawn : PyCmd → Bool → Option EnvMap → Except PyExc SpawnResult)
    (ambient : EnvMap) (cmd : PyCmd) (envOpt : Option EnvMap) (shell : Bool) (e : PyExc)
    (hm : cmdShellMatches cmd shell = true)
    (hs : spawn cmd shell (envOpt.map (fun ev => dictUpdate ambient ev)) = .error e)
    (he : isLaunchErr e = true) :
    run_command_async spawn ambient cmd envOpt shell = (.ok ⟨cmd, 1, [], e.msg⟩, ambient) := by
  unfold run_command_async runCommandCore
  cases cmd with
  | strCmd s =>
    cases shell with
    | false => simp [cmdShellMatches] at hm
    | true => simp [hs, he]
  | listCmd l =>
    cases shell with
    | false => simp [hs, he]
    | true => simp [cmdShellMatches] at hm

/-- C7 counterexample: a malformed-arguments launch (a list command with
`shell=True`) raises `TypeError` out of `run_command_async` instead of
returning a failure-shaped `CompletedProcess`. -/
theorem spec_C7_cx :
    run_command_async spawnFNF [] (.listCmd [pstr "orion"]) none true =
      (.error (.typeError (pstr "command must be a string when shell=True")), []) := rfl

theorem spec_C7_witness :
    run_command_async spawnFNF [] (.listCmd [pstr "orion"]) none false =
      (.ok ⟨.listCmd [pstr "orion"], 1, [],
        pstr "[Errno 2] No such file or directory: \x27orion\x27"⟩, []) :=
  spec_C7 spawnFNF [] (.listCmd [pstr "orion"]) none false
    (.osError (pstr "[Errno 2] No such file or directory: \x27orion\x27")) rfl rfl rfl

theorem lookupKey_dictUpdate (env : EnvMap) :
    ∀ (ambient : EnvMap) (k : PyStr), (env.map Prod.fst).Nodup →
    lookupKey (dictUpdate ambient env) k =
      match lookupKey env k with
      | some v => some v
      | none => lookupKey ambient k := by
  induction env with
  | nil => intro ambient k _; rfl
  | cons a rest ih =>
    intro ambient k hnd
    obtain ⟨k1, v1⟩ := a
    simp only [List.map_cons, List.nodup_cons] at hnd
    obtain ⟨hk1, hrest⟩ := hnd
    have hstep : dictUpdate ambient ((k1, v1) :: rest) = dictUpdate (setKey ambient k1 v1) rest := rfl
    rw [hstep, ih (setKey ambient k1 v1) k hrest]
    by_cases hk : k1 = k
    · subst hk
      have hnone : lookupKey rest k1 = none := lookupKey_eq_none rest k1 hk1
      simp [hnone, lookupKey, lookupKey_setKey_self]
    · have hcons : lookupKey ((k1, v1) :: rest) k = lookupKey rest k := by
        simp [lookupKey, hk]
      rw [hcons]
      cases hl : lookupKey rest k with
      | some v => rfl
      | none => simp [lookupKey_setKey_ne ambient k1 k v1 (Ne.symm hk)]

/-- C8: the runner's merged child environment is the ambient environment
overlaid with the overrides (overrides win on key collision), and
`os.environ` after the call is exactly what it was before. -/
theorem spec_C8 (spawn : PyCmd → Bool → Option EnvMap → Except PyExc SpawnResult)
    (ambient : EnvMap) (cmd : PyCmd) (envOpt : Option EnvMap) (shell : Bool)
    (env : EnvMap) (k : PyStr) :
    (run_command_async spawn ambient cmd envOpt shell).2 = ambient ∧
    ((env.map Prod.fst).Nodup →
      lookupKey (dictUpdate ambient env) k =
        match lookupKey env k with
        | some v => some v
        | none => lookupKey ambient k) :=
  ⟨rfl, fun hnd => lookupKey_dictUpdate env ambient k hnd⟩

theorem spec_C8_witness :
    (run_command_async spawnFNF [(pstr "A", pstr "1")] (.listCmd [])
      (some [(pstr "A", pstr "2"), (pstr "B", pstr "3")]) false).2 = [(pstr "A", pstr "1")] ∧
    lookupKey (dictUpdate [(pstr "A", pstr "1")] [(pstr "A", pstr "2"), (pstr "B", pstr "3")])
      (pstr "A") = some (pstr "2") := by
  have h := spec_C8 spawnFNF [(pstr "A", pstr "1")] (.listCmd [])
    (some [(pstr "A", pstr "2"), (pstr "B", pstr "3")]) false
    [(pstr "A", pstr "2"), (pstr "B", pstr "3")] (pstr "A")
  exact ⟨h.1, (h.2 (by decide)).trans (by rfl)⟩

theorem scov_comm (a b : List ℝ) : scov a b = scov b a := by
  unfold scov
  rw [← List.zip_swap a b, List.map_map]
  have hf : (fun p : ℝ × ℝ => (p.1 - mean b) * (p.2 - mean a)) ∘ Prod.swap
      = fun p : ℝ × ℝ => (p.1 - mean a) * (p.2 - mean b) := by
    funext p
    simp [Prod.swap]
    ring
  rw [hf]

/-- C9: the spec-modelled Pearson helper returns the not-a-number sentinel
for mismatched lengths, short series and zero variance, is symmetric under
a simultaneous swap of its arguments, and equals 1 on the claim's example
`a = [1,2,3]`, `b = [2,4,6]`. -/
theorem spec_C9 :
    (∀ a b : List ℝ,
      (a.length ≠ b.length ∨ a.length < 2 ∨ b.length < 2 ∨ svar a = 0 ∨ svar b = 0) →
      pearson a b = none) ∧
    (∀ a b : List ℝ, pearson a b = pearson b a) ∧
    pearson [1, 2, 3] [2, 4, 6] = some 1 := by
  refine ⟨?_, ?_, ?_⟩
  · intro a b h
    unfold pearson
    rw [if_neg]
    rintro ⟨h1, h2, h3, h4, h5⟩
    rcases h with h | h | h | h | h
    · exact h h1
    · omega
    · omega
    · exact h4 h
    · exact h5 h
  · intro a b
    unfold pearson
    by_cases h : a.length = b.length ∧ 2 ≤ a.length ∧ 2 ≤ b.length ∧ svar a ≠ 0 ∧ svar b ≠ 0
    · obtain ⟨h1, h2, h3, h4, h5⟩ := h
      rw [if_pos ⟨h1, h2, h3, h4, h5⟩, if_pos ⟨h1.symm, h3, h2, h5, h4⟩,
        scov_comm a b, mul_comm]
    · rw [if_neg h, if_neg (fun hc => h ⟨hc.1.symm, hc.2.2.1, hc.2.1, hc.2.2.2.2, hc.2.2.2.1⟩)]
  · have hsa : svar [(1:ℝ), 2, 3] = 2 := by
      simp [svar, scov, mean, List.zip_cons_cons, List.zip_nil_right]
      norm_num
    have hsb : svar [(2:ℝ), 4, 6] = 8 := by
      simp [svar, scov, mean, List.zip_cons_cons, List.zip_nil_right]
      norm_num
    have hc : scov [(1:ℝ), 2, 3] [(2:ℝ), 4, 6] = 4 := by
      simp [scov, mean, List.zip_cons_cons, List.zip_nil_right]
      norm_num
    unfold pearson
    rw [if_pos ⟨by simp, by simp, by simp, by rw [hsa]; norm_num, by rw [hsb]; norm_num⟩]
    rw [hc, hsa, hsb, ← Real.sqrt_mul (by norm_num : (0:ℝ) ≤ 2)]
    rw [show (2:ℝ) * 8 = 16 by norm_num, show (16:ℝ) = 4 ^ 2 by norm_num,
      Real.sqrt_sq (by norm_num : (0:ℝ) ≤ 4)]
    norm_num

theorem spec_C9_witness : pearson [(1:ℝ)] [1, 2] = none :=
  spec_C9.1 [1] [1, 2] (Or.inl (by decide))

/-- C10: `run_orion` raises `ValueError` exactly when `data_source` is the
empty string; `None` (what `get_data_source` yields when `ES_SERVER` is
unset) is not rejected and flows into the child-process environment's
`ES_SERVER` entry. -/
theorem spec_C10 (p : Bool) (lb cfg ver : PyStr) (ds : Option PyStr) :
    (runOrionRejects p lb cfg ds ver = true ↔ ds = some []) ∧
    (ds = none → runOrionES p lb cfg ds ver = some (some none)) ∧
    (∀ amb : EnvMap, lookupKey amb (pstr "ES_SERVER") = none →
      runOrionES p lb cfg (get_data_source amb) ver = some (some none)) := by
  refine ⟨⟨?_, ?_⟩, ?_, ?_⟩
  · intro h
    by_cases hd : ds = some []
    · exact hd
    · unfold runOrionRejects run_orion at h
      rw [if_neg hd] at h
      simp at h
  · intro hd
    subst hd
    rfl
  · intro hd
    subst hd
    rfl
  · intro amb ha
    unfold get_data_source
    rw [ha]
    rfl

theorem spec_C10_witness :
    runOrionRejects true (pstr "15") (pstr "cfg.yaml") (some []) (pstr "4.19") = true ∧
    runOrionES true (pstr "15") (pstr "cfg.yaml") none (pstr "4.19") = some (some none) ∧
    runOrionES true (pstr "15") (pstr "cfg.yaml") (get_data_source []) (pstr "4.19") = some (some none) :=
  ⟨(spec_C10 true (pstr "15") (pstr "cfg.yaml") (pstr "4.19") (some [])).1.mpr rfl,
   (spec_C10 true (pstr "15") (pstr "cfg.yaml") (pstr "4.19") none).2.1 rfl,
   (spec_C10 true (pstr "15") (pstr "cfg.yaml") (pstr "4.19") (get_data_source [])).2.2 [] rfl⟩
